import Mathlib

/-!
Verification development for the Kraken DCA bot (`buy.py`).

The Python source is shallowly embedded below:
* money amounts are modelled as rationals (`ℚ`),
* network and filesystem effects are modelled as an explicit trace of
  `Event` values produced by pure functions,
* the outcome of each network call is supplied by an environment value
  (`BalanceResponse`, `CoinEnv`) so that every behaviour of the exchange
  can be quantified over,
* a Python exception is modelled by the `PyResult.exn` constructor,
* the cryptographic primitives used by the request signer (SHA-256,
  HMAC-SHA512, base64) are external library calls and are therefore
  abstracted as fields of a `Crypto` structure; the byte-level message
  construction around them is embedded concretely.
-/

/-- Result of a Python call that may raise: `ok` is a normal return,
`exn` carries the exception message. -/
inductive PyResult (α : Type) where
  | ok (val : α)
  | exn (msg : String)
deriving DecidableEq

/-- One configured asset: the pair and amount entries of a coin in `config.json`. -/
structure Coin where
  pair : String
  amount : ℚ
deriving DecidableEq

/-- The parsed JSON envelope returned by the private `Balance` endpoint:
its `error` list and the optional `ZEUR` entry of `result`. -/
structure BalanceResponse where
  error : List String
  zeur : Option ℚ
deriving DecidableEq

/-- The parsed JSON envelope returned by the private `AddOrder` endpoint:
its `error` list and the first transaction id of `result.txid`
(defaulted to `"Unknown"` by the source when absent). -/
structure OrderResponse where
  error : List String
  txid : String
deriving DecidableEq

/-- Environment for processing one coin: what the exchange answers to the
price query (`get_current_price`, which raises on API-level errors and on
transport failures) and to the order placement (`place_market_buy_order`,
which returns the response envelope; a transport failure raises). -/
structure CoinEnv where
  priceResult : PyResult ℚ
  orderResult : PyResult OrderResponse
deriving DecidableEq

/-- Observable effects of a run.  Console printing is presentation and is
not recorded; `notify…` events are `NotificationManager.notify` calls,
`priceQuery` / `orderRequest` / `balanceQuery` are network calls, and
`ledgerRow` is a `TradeLogger.log_trade` call with its arguments. -/
inductive Event where
  | balanceQuery
  | notifyBalanceFetchFailed (errs : List String)
  | notifyInsufficient (pair : String) (required avail : ℚ)
  | priceQuery (pair : String)
  | orderRequest (pair : String) (volume : ℚ)
  | notifySuccess (pair : String) (amount price volume : ℚ) (txid : String) (remaining : ℚ)
  | notifyError (pair : String) (msg : String)
  | ledgerRow (pair : String) (price volume euroAmount : ℚ) (txid : String)
deriving DecidableEq

/-- Embedding of `DCABot._process_coin(coin, eur_balance)`: returns the remaining
balance together with the trace of effects.  Mirrors the source: skip
with a warning when `euro_amount > eur_balance`; otherwise fetch the
price, compute `volume = euro_amount / price` (a zero price raises
`ZeroDivisionError`, caught by the same handler), place the order, and on
a response with an empty error list deduct the amount, notify success and
write the ledger row.  A response with a non-empty error list falls
through the success guard on the error list of the result: the balance is unchanged and
nothing further happens.  Any exception is caught and notified. -/
def processCoin (env : CoinEnv) (coin : Coin) (eurBalance : ℚ) : ℚ × List Event :=
  if coin.amount > eurBalance then
    (eurBalance, [.notifyInsufficient coin.pair coin.amount eurBalance])
  else
    match env.priceResult with
    | .exn msg => (eurBalance, [.priceQuery coin.pair, .notifyError coin.pair msg])
    | .ok price =>
      if price = 0 then
        (eurBalance, [.priceQuery coin.pair, .notifyError coin.pair "float division by zero"])
      else
        let volume := coin.amount / price
        match env.orderResult with
        | .exn msg =>
          (eurBalance, [.priceQuery coin.pair, .orderRequest coin.pair volume,
            .notifyError coin.pair msg])
        | .ok resp =>
          if resp.error = [] then
            let newBalance := eurBalance - coin.amount
            (newBalance, [.priceQuery coin.pair, .orderRequest coin.pair volume,
              .notifySuccess coin.pair coin.amount price volume resp.txid newBalance,
              .ledgerRow coin.pair price volume coin.amount resp.txid])
          else
            (eurBalance, [.priceQuery coin.pair, .orderRequest coin.pair volume])

/-- The per-coin loop of `DCABot.run`.  Faithful to the source, which
iterates `self._process_coin(coin, eur_balance)` WITHOUT assigning the
returned balance back to `eur_balance`: every iteration receives the same
`eurBalance`. -/
def runLoop (coins : List (Coin × CoinEnv)) (eurBalance : ℚ) : List Event :=
  match coins with
  | [] => []
  | (coin, env) :: rest => (processCoin env coin eurBalance).2 ++ runLoop rest eurBalance

/-- Embedding of `DCABot.run`: query the balance; on a non-empty error list notify the
failure and return; otherwise read the `ZEUR` entry (defaulting to `0`
by the `get` call on the account balance) and process each configured coin. -/
def run (br : BalanceResponse) (coins : List (Coin × CoinEnv)) : List Event :=
  if br.error ≠ [] then
    [.balanceQuery, .notifyBalanceFetchFailed br.error]
  else
    .balanceQuery :: runLoop coins (br.zeur.getD 0)

/-- The `euro_spent` entries of the ledger rows of a trace. -/
def ledgerSpends : List Event → List ℚ
  | [] => []
  | .ledgerRow _ _ _ a _ :: rest => a :: ledgerSpends rest
  | _ :: rest => ledgerSpends rest

/-- Embedding of `TradeLogger.convert_kraken_pair_to_symbol`: strip the first matching
quote-currency suffix from the list EUR, USD, USDT, BTC, map a base of
exactly XBT to BTC, then strip one leading X or Z.  Python strings are
modelled as their character lists, so the endswith test is a suffix test,
the negative slice is a take, the startswith test is a prefix test and
the slice from index one is a drop. -/
def convertKrakenPairToSymbol (pair : String) : String :=
  let quoteCurrencies := ["EUR", "USD", "USDT", "BTC"]
  let base :=
    match quoteCurrencies.find? (fun quote => quote.toList.isSuffixOf pair.toList) with
    | some quote => String.mk (pair.toList.take (pair.toList.length - quote.toList.length))
    | none => pair
  if base = "XBT" then "BTC"
  else if "X".toList.isPrefixOf base.toList || "Z".toList.isPrefixOf base.toList then
    String.mk (base.toList.drop 1)
  else base

/-- The nonce generated by `KrakenAPI.request`:
`str(int(time.time()*1000))` with `time.time()` modelled as a
non-negative rational number of seconds (`int` truncation coincides with
`⌊·⌋` on non-negative values). -/
def requestNonce (t : ℚ) : ℤ := ⌊t * 1000⌋

/-- UTF-8 encoding of a Unicode code point as a list of byte values. -/
def utf8Bytes (n : Nat) : List Nat :=
  if n < 128 then [n]
  else if n < 2048 then [192 + n / 64, 128 + n % 64]
  else if n < 65536 then [224 + n / 4096, 128 + (n / 64) % 64, 128 + n % 64]
  else [240 + n / 262144, 128 + (n / 4096) % 64, 128 + (n / 64) % 64, 128 + n % 64]

/-- Embedding of `s.encode()`: the UTF-8 bytes of a string. -/
def strUtf8 (s : String) : List Nat :=
  (s.toList.map fun c => utf8Bytes c.toNat).flatten

/-- Upper-case hexadecimal digit. -/
def hexDigitChar (n : Nat) : Char :=
  (['0', '1', '2', '3', '4', '5', '6', '7', '8', '9',
    'A', 'B', 'C', 'D', 'E', 'F']).getD n '0'

/-- Percent escape `%XX` of one byte value. -/
def percentEncodeByte (b : Nat) : String :=
  String.mk ['%', hexDigitChar (b / 16), hexDigitChar (b % 16)]

/-- Characters `urllib.parse.quote_plus` leaves unescaped. -/
def isUrlSafeChar (c : Char) : Bool :=
  c.isAlpha || c.isDigit || c = '_' || c = '.' || c = '-' || c = '~'

/-- Embedding of `urllib.parse.quote_plus`: spaces become `+`, safe characters pass
through, every other character is percent-escaped byte by byte. -/
def quotePlus (s : String) : String :=
  String.join (s.toList.map fun c =>
    if c = ' ' then "+"
    else if isUrlSafeChar c then String.singleton c
    else String.join ((utf8Bytes c.toNat).map percentEncodeByte))

/-- Embedding of `urllib.parse.urlencode(data)`: `k=v` pairs joined by `&`, in the
key traversal order of `data` (modelled as an association list). -/
def urlencode (data : List (String × String)) : String :=
  String.intercalate "&" (data.map fun kv => quotePlus kv.1 ++ "=" ++ quotePlus kv.2)

/-- The external cryptographic and codec primitives used by the signer
(`hashlib.sha256`, `hmac.new(…, hashlib.sha512)`, `base64`).  They are
library calls, not code of this repository, so they are abstracted;
`hmacSha512 key msg` is the MAC digest of `msg` under `key`. -/
structure Crypto where
  sha256 : List Nat → List Nat
  hmacSha512 : List Nat → List Nat → List Nat
  b64decode : String → List Nat
  b64encode : List Nat → String

/-- Embedding of `KrakenAPI.get_signature(urlpath, data)`: url-encode `data`, prepend
the string form of the nonce entry of `data`, SHA-256 the UTF-8 bytes, prepend the UTF-8 bytes of
`urlpath`, HMAC-SHA512 under the base64-decoded secret, base64-encode.
A missing nonce key raises `KeyError`, hence the `Option`. -/
def getSignature (cr : Crypto) (apiSecret : String) (urlpath : String)
    (data : List (String × String)) : Option String :=
  match data.lookup "nonce" with
  | none => none
  | some nonceVal =>
    let postdata := urlencode data
    let encoded := strUtf8 (nonceVal ++ postdata)
    let message := strUtf8 urlpath ++ cr.sha256 encoded
    some (cr.b64encode (cr.hmacSha512 (cr.b64decode apiSecret) message))

/-- The Signer contract exactly as the specification words it:
base64-encode the HMAC-SHA512, keyed by the base64-decoded private key,
of the request path's UTF-8 bytes followed by the SHA-256 digest of the
string form of the nonce concatenated with the form-urlencoded body. -/
def signSpec (cr : Crypto) (privateKey : String) (requestPath : String)
    (nonce : ℕ) (formBody : List (String × String)) : String :=
  cr.b64encode (cr.hmacSha512 (cr.b64decode privateKey)
    (strUtf8 requestPath ++ cr.sha256 (strUtf8 (toString nonce ++ urlencode formBody))))

/-- A trivial instantiation of the abstract primitives, used only to
evaluate the signer on concrete inputs. -/
def idCrypto : Crypto where
  sha256 := fun l => l
  hmacSha512 := fun key msg => key ++ msg
  b64decode := fun s => strUtf8 s
  b64encode := fun l => String.intercalate "," (l.map toString)

/-- C2: for every request path, nonce and form body (with the nonce entry
present, as `KrakenAPI.request` always arranges), the token computed by
`KrakenAPI.get_signature` is exactly the token described by the Signer
contract: base64 of the HMAC-SHA512, keyed by the base64-decoded private
key, of the path bytes followed by the SHA-256 digest of the string form
of the nonce concatenated with the urlencoded body in key traversal
order. -/
theorem c2_signature_matches_spec (cr : Crypto) (secret urlpath : String)
    (data : List (String × String)) (nonce : ℕ)
    (h : data.lookup "nonce" = some (toString nonce)) :
    getSignature cr secret urlpath data = some (signSpec cr secret urlpath nonce data) := by
  simp [getSignature, signSpec, h]

theorem c2_signature_matches_spec_witness :
    getSignature idCrypto "sec" "/0/private/AddOrder" [("nonce", "5"), ("pair", "ADAEUR")] =
      some (signSpec idCrypto "sec" "/0/private/AddOrder" 5 [("nonce", "5"), ("pair", "ADAEUR")]) :=
  c2_signature_matches_spec idCrypto "sec" "/0/private/AddOrder"
    [("nonce", "5"), ("pair", "ADAEUR")] 5 (by decide)

/-- C3 evaluation: the accounting-export normalization maps the pair
XXBTZEUR to XBTZ (the EUR suffix is stripped, leaving XXBTZ, which is not
XBT, so only the leading X is dropped), not to BTC as the specification
claims; ADAEUR is mapped to ADA as claimed. -/
theorem c3_pair_normalization_eval :
    convertKrakenPairToSymbol "XXBTZEUR" = "XBTZ" ∧
    convertKrakenPairToSymbol "ADAEUR" = "ADA" := by
  constructor <;> decide

/-- C5: when the balance fetch returns a non-empty error list, the run
notifies the failure and terminates: the whole trace is the balance query
followed by that one notification, so no price query, no order placement
and no ledger row occurs. -/
theorem c5_balance_fetch_failure_aborts (br : BalanceResponse)
    (coins : List (Coin × CoinEnv)) (h : br.error ≠ []) :
    run br coins = [.balanceQuery, .notifyBalanceFetchFailed br.error] := by
  simp [run, h]

theorem c5_balance_fetch_failure_aborts_witness :
    run ⟨["EAPI:Invalid key"], none⟩ [(⟨"ADAEUR", 50⟩, ⟨.ok 1, .ok ⟨[], "T"⟩⟩)] =
      [.balanceQuery, .notifyBalanceFetchFailed ["EAPI:Invalid key"]] :=
  c5_balance_fetch_failure_aborts ⟨["EAPI:Invalid key"], none⟩
    [(⟨"ADAEUR", 50⟩, ⟨.ok 1, .ok ⟨[], "T"⟩⟩)] (by decide)

/-- C7: an asset whose amount exceeds the balance passed to it is skipped:
the only effect is the insufficient-funds warning (no price query, no
order, no ledger row) and the returned balance is unchanged. -/
theorem c7_insufficient_funds_skips (env : CoinEnv) (coin : Coin) (bal : ℚ)
    (h : coin.amount > bal) :
    processCoin env coin bal = (bal, [.notifyInsufficient coin.pair coin.amount bal]) := by
  simp [processCoin, h]

theorem c7_insufficient_funds_skips_witness :
    processCoin ⟨.ok 1, .ok ⟨[], "T"⟩⟩ ⟨"ADAEUR", 60⟩ 40 =
      (40, [.notifyInsufficient "ADAEUR" 60 40]) :=
  c7_insufficient_funds_skips ⟨.ok 1, .ok ⟨[], "T"⟩⟩ ⟨"ADAEUR", 60⟩ 40 (by norm_num)

/-- C1 evaluation: with initial balance 100 and two assets of 60 each
(all network calls succeeding at price 1), the run purchases BOTH assets:
`DCABot.run` never assigns the balance returned by `_process_coin` back,
so the second asset is judged against the original 100 instead of the 40
left by the first.  The trace shows two purchases, each reporting a
remaining balance of 40, and the ledger rows total 120, exceeding the
initial 100 — the claimed sequential deduction (B skipped, final balance
40) does not hold on the code. -/
theorem c1_balance_not_threaded_eval :
    run ⟨[], some 100⟩
        [(⟨"AEUR", 60⟩, ⟨.ok 1, .ok ⟨[], "T1"⟩⟩), (⟨"BEUR", 60⟩, ⟨.ok 1, .ok ⟨[], "T2"⟩⟩)] =
      [.balanceQuery,
       .priceQuery "AEUR", .orderRequest "AEUR" 60,
       .notifySuccess "AEUR" 60 1 60 "T1" 40, .ledgerRow "AEUR" 1 60 60 "T1",
       .priceQuery "BEUR", .orderRequest "BEUR" 60,
       .notifySuccess "BEUR" 60 1 60 "T2" 40, .ledgerRow "BEUR" 1 60 60 "T2"] ∧
    (ledgerSpends (run ⟨[], some 100⟩
        [(⟨"AEUR", 60⟩, ⟨.ok 1, .ok ⟨[], "T1"⟩⟩),
         (⟨"BEUR", 60⟩, ⟨.ok 1, .ok ⟨[], "T2"⟩⟩)])).sum = 120 := by
  constructor <;> norm_num [run, runLoop, processCoin, ledgerSpends]

/-- C4 evaluation: when the exchange answers the order placement with a
non-empty error list, `_process_coin` returns normally (no exception)
with the balance unchanged and writes no ledger row, and the loop goes on
to the next asset — but it sends NO notification at all: the trace of the
failed asset consists of the price query and the order request only,
while the claim and the specification require an error notification. -/
theorem c4_order_error_no_notification_eval :
    processCoin ⟨.ok 10, .ok ⟨["EOrder:Insufficient volume"], "Unknown"⟩⟩ ⟨"ADAEUR", 50⟩ 100 =
      (100, [.priceQuery "ADAEUR", .orderRequest "ADAEUR" 5]) ∧
    runLoop [(⟨"ADAEUR", 50⟩, ⟨.ok 10, .ok ⟨["EOrder:Insufficient volume"], "Unknown"⟩⟩),
             (⟨"BEUR", 30⟩, ⟨.ok 3, .ok ⟨[], "T2"⟩⟩)] 100 =
      [.priceQuery "ADAEUR", .orderRequest "ADAEUR" 5,
       .priceQuery "BEUR", .orderRequest "BEUR" 10,
       .notifySuccess "BEUR" 30 3 10 "T2" 70, .ledgerRow "BEUR" 3 10 30 "T2"] := by
  constructor <;> norm_num [runLoop, processCoin]

/-- C6: a price-fetch failure is isolated.  First conjunct: for any asset
whose amount fits the balance but whose price fetch raises, the balance
is returned unchanged and the trace is the price query followed by the
error notification — no order, no ledger row.  Second conjunct: the loop
processes every asset of the list regardless of what the others do.
Third conjunct: the concrete scenario of the claim — balance 100, asset A
whose price fetch raises, asset B of 50 at price 10 — yields a failed A
with B still purchasing 5 units, and exactly one ledger row (of 50, for
B). -/
theorem c6_price_failure_isolated :
    (∀ (env : CoinEnv) (coin : Coin) (bal : ℚ) (msg : String),
        env.priceResult = .exn msg → coin.amount ≤ bal →
        processCoin env coin bal =
          (bal, [.priceQuery coin.pair, .notifyError coin.pair msg])) ∧
    (∀ (pre post : List (Coin × CoinEnv)) (coin : Coin) (env : CoinEnv) (bal : ℚ),
        runLoop (pre ++ (coin, env) :: post) bal =
          runLoop pre bal ++ (processCoin env coin bal).2 ++ runLoop post bal) ∧
    (run ⟨[], some 100⟩
        [(⟨"AEUR", 60⟩, ⟨.exn "timeout", .ok ⟨[], "T1"⟩⟩),
         (⟨"BEUR", 50⟩, ⟨.ok 10, .ok ⟨[], "T2"⟩⟩)] =
      [.balanceQuery, .priceQuery "AEUR", .notifyError "AEUR" "timeout",
       .priceQuery "BEUR", .orderRequest "BEUR" 5,
       .notifySuccess "BEUR" 50 10 5 "T2" 50, .ledgerRow "BEUR" 10 5 50 "T2"] ∧
      ledgerSpends (run ⟨[], some 100⟩
        [(⟨"AEUR", 60⟩, ⟨.exn "timeout", .ok ⟨[], "T1"⟩⟩),
         (⟨"BEUR", 50⟩, ⟨.ok 10, .ok ⟨[], "T2"⟩⟩)]) = [50]) := by
  refine ⟨?_, ?_, ?_⟩
  · intro env coin bal msg hpr hle
    simp [processCoin, hpr, not_lt.mpr hle]
  · intro pre post coin env bal
    induction pre with
    | nil => simp [runLoop]
    | cons head tail ih =>
      obtain ⟨c, e⟩ := head
      simp [runLoop, ih, List.append_assoc]
  · constructor <;> norm_num [run, runLoop, processCoin, ledgerSpends]

theorem c6_price_failure_isolated_witness :
    processCoin ⟨.exn "timeout", .ok ⟨[], "T"⟩⟩ ⟨"AEUR", 60⟩ 100 =
      (100, [.priceQuery "AEUR", .notifyError "AEUR" "timeout"]) :=
  c6_price_failure_isolated.1 ⟨.exn "timeout", .ok ⟨[], "T"⟩⟩ ⟨"AEUR", 60⟩ 100 "timeout"
    rfl (by norm_num)

/-- C8 counterexample: two successive private calls made at clock
readings inside the same millisecond receive the SAME nonce, although the
second reading is strictly later — the nonce supplied on the later call
is not strictly greater, refuting the claimed unconditional strict
monotonicity. -/
theorem c8_nonce_not_strictly_increasing_counterexample :
    (1 / 4000 : ℚ) < 1 / 2000 ∧ requestNonce (1 / 4000) = requestNonce (1 / 2000) := by
  constructor
  · norm_num
  · norm_num [requestNonce]

/-- C8 amended: the nonce is the millisecond clock reading, so across
successive private calls it is nondecreasing whenever the clock is
nondecreasing; it is strictly greater only when the later call falls in a
strictly later millisecond, and two calls within the same millisecond
share a nonce. -/
theorem c8_nonce_nondecreasing (t1 t2 : ℚ) (h : t1 ≤ t2) :
    requestNonce t1 ≤ requestNonce t2 := by
  unfold requestNonce
  exact Int.floor_le_floor (by nlinarith)

theorem c8_nonce_nondecreasing_witness : requestNonce 1 ≤ requestNonce 2 :=
  c8_nonce_nondecreasing 1 2 (by norm_num)

/-- C9: every ledger row produced while processing an asset carries as
its euro-spent value exactly the configured amount of that asset — the
fourth argument of `log_trade` is `euro_amount` as read from the config,
never a recomputation from price and volume. -/
theorem c9_ledger_fiat_spent_eq_amount (env : CoinEnv) (coin : Coin) (bal : ℚ)
    (p : String) (pr v a : ℚ) (tx : String)
    (h : Event.ledgerRow p pr v a tx ∈ (processCoin env coin bal).2) :
    a = coin.amount := by
  obtain ⟨priceRes, orderRes⟩ := env
  by_cases h1 : coin.amount > bal
  · simp [processCoin, h1] at h
  · cases priceRes with
    | exn msg => simp [processCoin, h1] at h
    | ok price =>
      by_cases h2 : price = 0
      · simp [processCoin, h1, h2] at h
      · cases orderRes with
        | exn msg => simp [processCoin, h1, h2] at h
        | ok resp =>
          by_cases h3 : resp.error = []
          · simp [processCoin, h1, h2, h3] at h
            exact h.2.2.2.1
          · simp [processCoin, h1, h2, h3] at h

theorem c9_ledger_fiat_spent_eq_amount_witness :
    (50 : ℚ) = (Coin.mk "ADAEUR" 50).amount :=
  c9_ledger_fiat_spent_eq_amount ⟨.ok 10, .ok ⟨[], "TX1"⟩⟩ ⟨"ADAEUR", 50⟩ 100
    "ADAEUR" 10 5 50 "TX1"
    (by norm_num [processCoin])

/-- C10: when the balance fetch succeeds but the response has no ZEUR
entry, the run does not fail: the local balance is taken to be 0, and
every configured asset with a positive amount is skipped with an
insufficient-funds warning — the trace is the balance query followed by
one warning per asset, with no price query, order or ledger row. -/
theorem c10_missing_zeur_all_skipped (br : BalanceResponse)
    (coins : List (Coin × CoinEnv))
    (h1 : br.error = []) (h2 : br.zeur = none)
    (h3 : ∀ ce ∈ coins, 0 < ce.1.amount) :
    run br coins =
      .balanceQuery :: coins.map fun ce => .notifyInsufficient ce.1.pair ce.1.amount 0 := by
  have hloop : ∀ (cs : List (Coin × CoinEnv)), (∀ ce ∈ cs, 0 < ce.1.amount) →
      runLoop cs 0 = cs.map fun ce => Event.notifyInsufficient ce.1.pair ce.1.amount 0 := by
    intro cs hcs
    induction cs with
    | nil => rfl
    | cons head tail ih =>
      obtain ⟨coin, env⟩ := head
      have hpos : 0 < coin.amount := hcs _ (List.mem_cons_self _ _)
      simp [runLoop, processCoin, hpos,
        ih fun ce hce => hcs ce (List.mem_cons_of_mem _ hce)]
  simp [run, h1, h2, hloop coins h3]

theorem c10_missing_zeur_all_skipped_witness :
    run ⟨[], none⟩ [(⟨"ADAEUR", 50⟩, ⟨.ok 1, .ok ⟨[], "T"⟩⟩)] =
      [.balanceQuery, .notifyInsufficient "ADAEUR" 50 0] :=
  c10_missing_zeur_all_skipped ⟨[], none⟩ [(⟨"ADAEUR", 50⟩, ⟨.ok 1, .ok ⟨[], "T"⟩⟩)]
    rfl rfl (by norm_num)
